import Mathlib

/-!
Shallow embedding of the command engine of
`src/examples/vr_sample_train/vr_sample_train.ino`
(Elechouse VoiceRecognitionV3 "train" sample sketch).

A command line is modelled as a `List Nat` of byte values (each < 256 for
real input).  The global byte buffer `cmd` together with the length `len`
handed around by the C code becomes the list itself; pointers into `cmd`
become offsets (`Nat`).

The C scan loops of `checkParaNum` and `findPara` advance a cursor that,
at a carriage-return or line-feed byte, may stay in place while a counter
grows, so the translations below carry an explicit fuel argument that makes
them structurally recursive (hence kernel-computable); the fuel chosen at
the wrappers is provably sufficient (see the `_congr` lemmas), so the
wrappers agree with the C loops on every input the sketch can reach
(`receiveCMD` only ever delivers lines whose last byte is a newline).
-/

namespace VRSample

/-- Bytes that `findPara`'s outer scan skips: tab (9) and space (32).
(C condition `dt!='\t' && dt!=' '` is the negation of this.) -/
def isSep (b : Nat) : Bool := b == 9 || b == 32

/-- Carriage return (13) and newline (10). -/
def isTerm (b : Nat) : Bool := b == 13 || b == 10

/-- The four bytes at which every inner `while` of `checkParaNum` and
`findPara` stops: tab, space, CR, LF. -/
def isDelim (b : Nat) : Bool := isSep b || isTerm b

/-- Length of the maximal leading run of non-delimiter bytes: the value the
inner `while(cmd[i]!='\t' && cmd[i]!=' ' && cmd[i]!='\r' && cmd[i]!='\n')`
loop of `findPara` counts into `paraLen`. -/
def tokenLen (l : List Nat) : Nat := (l.takeWhile fun b => !isDelim b).length

/-- Suffix remaining after that same inner `while` loop: the scan position
lands on the first delimiter byte (or the end of the buffer). -/
def skipTok (l : List Nat) : List Nat := l.dropWhile fun b => !isDelim b

/-- `checkCMD`: the line is valid when every byte is printable
(`cmd[i] > 0x1F && cmd[i] < 0x7F`) or tab/space/CR/LF.
The C function returns 0 for a valid line; we return `true` for valid. -/
def checkCMD (l : List Nat) : Bool :=
  l.all fun b => (31 < b && b < 127) || b == 9 || b == 32 || b == 13 || b == 10

/-- One byte comparison of `compareCMD`: with `res = para2[i] - para1[i]`
computed in `uint8_t`, `if(res != 0 && res != 0x20){ return -1; }` fails
the pair unless `res` is 0 or 0x20, and the `else` branch then ALSO
requires the reverse difference `para1[i] - para2[i]` to be 0 or 0x20.
Both differences lie in {0, 0x20} only when they are both 0 (they are
additive inverses mod 256, and the inverse of 0x20 is 0xE0), so the pair
passes exactly when the bytes are equal — see C1. -/
def byteCaseEq (a b : Nat) : Bool :=
  ((b + 256 - a) % 256 == 0 || (b + 256 - a) % 256 == 32) &&
  ((a + 256 - b) % 256 == 0 || (a + 256 - b) % 256 == 32)

/-- `compareCMD(para1, para2, len)`: 0 (here `true`) iff every one of the
first `len` byte pairs passes `byteCaseEq`.  Out-of-range reads return 0,
matching the `'\0'` padding of the 10-byte rows of `cmdList`. -/
def compareCMD (para1 para2 : List Nat) (len : Nat) : Bool :=
  (List.range len).all fun i => byteCaseEq (para1.getD i 0) (para2.getD i 0)

/-- Fueled translation of the `checkParaNum` loop.  One unit of fuel per
iteration of the outer `for`; each iteration consumes at least one byte, so
`l.length` fuel is always enough (`checkParaNumF_congr`). -/
def checkParaNumF : Nat → List Nat → Nat
  | 0, _ => 0
  | _ + 1, [] => 0
  | fuel + 1, b :: rest =>
    if isDelim b then checkParaNumF fuel rest
    else 1 + checkParaNumF fuel (skipTok rest).tail

/-- `checkParaNum(len)`: number of maximal non-delimiter runs in the line. -/
def checkParaNum (l : List Nat) : Nat := checkParaNumF l.length l

/-- Fueled translation of the `findPara` loop.  The outer `for` either
advances the cursor or increments `cnt`, and `cnt` never passes the
requested index, so `l.length + rem + 1` fuel is enough (`findParaAuxF_congr`).
`rem` is the number of further token starts wanted before the hit
(`paraIndex - cnt` in the C code); `pos` the current cursor offset.
Returns the parameter's (offset, length), or `none` for the C return -1. -/
def findParaAuxF : Nat → List Nat → Nat → Nat → Option (Nat × Nat)
  | 0, _, _, _ => none
  | _ + 1, [], _, _ => none
  | fuel + 1, b :: rest, pos, rem =>
    if isSep b then findParaAuxF fuel rest (pos + 1) rem
    else if rem == 0 then some (pos, tokenLen (b :: rest))
    else findParaAuxF fuel (skipTok (b :: rest)) (pos + tokenLen (b :: rest)) (rem - 1)

/-- `findPara` scan with canonical (sufficient) fuel. -/
def findParaAux (l : List Nat) (pos rem : Nat) : Option (Nat × Nat) :=
  findParaAuxF (l.length + rem + 1) l pos rem

/-- `findPara(len, paraIndex, &addr)` as a pure view returning
`some (offset, length)` of the `paraIndex`-th parameter, or `none` for -1.
For `paraIndex = 0` the C loop never terminates on a line the sketch can
reach (it only counts upward from 1), and every caller passes an index ≥ 1;
we return `none` there. -/
def findPara (l : List Nat) (paraIndex : Nat) : Option (Nat × Nat) :=
  if paraIndex == 0 then none else findParaAux l 0 (paraIndex - 1)

/-! ### Command vocabulary and dispatch (the command half of `loop()`) -/

/-- `"train"` as bytes. -/
def trainW : List Nat := [116, 114, 97, 105, 110]
/-- `"load"` as bytes. -/
def loadW : List Nat := [108, 111, 97, 100]
/-- `"clear"` as bytes. -/
def clearW : List Nat := [99, 108, 101, 97, 114]
/-- `"vr"` as bytes. -/
def vrW : List Nat := [118, 114]
/-- `"record"` as bytes. -/
def recordW : List Nat := [114, 101, 99, 111, 114, 100]
/-- `"sigtrain"` as bytes. -/
def sigtrainW : List Nat := [115, 105, 103, 116, 114, 97, 105, 110]
/-- `"getsig"` as bytes. -/
def getsigW : List Nat := [103, 101, 116, 115, 105, 103]
/-- `"test"` as bytes. -/
def testW : List Nat := [116, 101, 115, 116]

/-- `cmdLen` and `cmdList` zipped, in table order.  `cmdFunction` is the
parallel handler table; we refer to handlers by their index here. -/
def cmdEntries : List (Nat × List Nat) :=
  [(5, trainW), (4, loadW), (5, clearW), (2, vrW),
   (6, recordW), (8, sigtrainW), (6, getsigW), (4, testW)]

/-- The `for(i=0;i<CMD_NUM;i++)` scan of `loop()`: first entry whose
`cmdLen` equals the first parameter's length and whose `cmdList` word
passes `compareCMD` wins. -/
def matchIdxAux (tok : List Nat) (tlen : Nat) : List (Nat × List Nat) → Nat → Option Nat
  | [], _ => none
  | e :: es, i =>
    if e.1 == tlen && compareCMD tok e.2 tlen then some i else matchIdxAux tok tlen es (i + 1)

def matchIdx (tok : List Nat) (tlen : Nat) : Option Nat := matchIdxAux tok tlen cmdEntries 0

/-- Outcome of one dispatch cycle of `loop()` for an assembled line:
`malformed` = "Command format error" (checkCMD failed), `unknown` =
"Unkonwn command", `handled idx len paraNum tokPos` = handler number `idx`
invoked with arguments `(len, paraNum)` and the global `paraAddr` pointing
at offset `tokPos` (the first parameter). -/
inductive DispatchResult
  | malformed
  | unknown
  | handled (idx : Nat) (len paraNum tokPos : Nat)
deriving DecidableEq

/-- The command-dispatch part of `loop()` on an assembled line. -/
def dispatch (line : List Nat) : DispatchResult :=
  if checkCMD line then
    match findPara line 1 with
    | none => .unknown
    | some (pos, plen) =>
      match matchIdx (List.drop pos line) plen with
      | none => .unknown
      | some i => .handled i line.length (checkParaNum line) pos
  else .malformed

/-! ### `atoi` and the shared record-argument validation of the handlers -/

/-- C `atoi` leading-whitespace set: space, `\t`, `\n`, `\v`, `\f`, `\r`. -/
def atoiWs (b : Nat) : Bool :=
  b == 32 || b == 9 || b == 10 || b == 11 || b == 12 || b == 13

/-- ASCII decimal digit test used by `atoi`. -/
def isDigitByte (b : Nat) : Bool := 48 ≤ b && b ≤ 57

/-- Digit-accumulation loop of `atoi`. -/
def atoiDigits : List Nat → Int → Int
  | [], acc => acc
  | b :: rest, acc =>
    if isDigitByte b then atoiDigits rest (acc * 10 + (b - 48 : Nat)) else acc

/-- C `atoi` on the bytes from a given position to the end of the buffer
(the buffer is not NUL-terminated, but every parameter the handlers parse
is followed by a delimiter byte, which stops the digit loop): skip leading
whitespace, read an optional sign, accumulate digits.
The mathematical value is returned; the sketch only ever uses it reduced
mod 256 (`uint8_t records[]`), and since 256 divides 2^16 (and 2^32) the
intermediate `int` truncation of the platform `atoi` cannot change that
residue. -/
def atoi (l : List Nat) : Int :=
  let l1 := l.dropWhile atoiWs
  if l1.headD 0 == 45 then - atoiDigits l1.tail 0
  else if l1.headD 0 == 43 then atoiDigits l1.tail 0
  else atoiDigits l1 0

/-- The per-argument step shared by cmdTrain / cmdLoad / cmdRecord /
cmdSigTrain / cmdGetSig:
`records[k] = atoi((char *)paraAddr); if(records[k] == 0 && *paraAddr != '0') return -1;`
`some v` is the accepted `uint8_t` value, `none` the format-error exit. -/
def parseRecordAt (line : List Nat) (pos : Nat) : Option Nat :=
  let v : Nat := ((atoi (List.drop pos line)).emod 256).toNat
  if v == 0 && !(line.getD pos 0 == 48) then none else some v

/-- The `for(i=2; i<=paraNum; i++)` argument loop of cmdTrain/cmdLoad
(and of cmdRecord's multi-argument branch): `idxs` is the remaining list
of parameter indices, `paraAddr` the current value of the shared pointer
(left unchanged when `findPara` fails, exactly as in C where a failed
`findPara` does not write through `addr`). -/
def parseArgsGo (line : List Nat) : List Nat → Nat → List Nat → Option (List Nat)
  | [], _, acc => some acc
  | i :: is, paraAddr, acc =>
    let pa := match findPara line i with | some (p, _) => p | none => paraAddr
    match parseRecordAt line pa with
    | none => none
    | some v => parseArgsGo line is pa (acc ++ [v])

/-- Validation outcome of cmdTrain / cmdLoad: `err` is the C return -1
(Command Format Error), `ok records` means the delegated operation is
invoked with exactly these record ids and the handler returns 0. -/
inductive TrainRes
  | err
  | ok (records : List Nat)
deriving DecidableEq

/-- `cmdTrain(len, paraNum)` validation and delegation decision. -/
def cmdTrain (line : List Nat) (paraNum : Nat) (pa0 : Nat) : TrainRes :=
  if paraNum < 2 || 8 < paraNum then .err
  else
    match parseArgsGo line (List.range' 2 (paraNum - 1)) pa0 [] with
    | none => .err
    | some rs => .ok rs

/-- `cmdLoad(len, paraNum)` validation: textually identical to cmdTrain's. -/
def cmdLoad (line : List Nat) (paraNum : Nat) (pa0 : Nat) : TrainRes :=
  if paraNum < 2 || 8 < paraNum then .err
  else
    match parseArgsGo line (List.range' 2 (paraNum - 1)) pa0 [] with
    | none => .err
    | some rs => .ok rs

/-- What a handler hands back to the dispatcher plus whether it printed a
delegate-failure diagnostic ("Train failed." / "Load failed." / ...):
`ret` is the C return value (0 success, -1 makes `loop()` print
"Command Format Error!"). -/
structure HandlerOut where
  ret : Int
  delegateFailed : Bool
deriving DecidableEq

/-- Full cmdTrain: after successful validation `myVR.train` is invoked;
`adapterRet` is its result; the handler prints "Train failed." when it is
negative but returns 0 either way. -/
def cmdTrainRun (line : List Nat) (paraNum pa0 : Nat) (adapterRet : Int) : HandlerOut :=
  match cmdTrain line paraNum pa0 with
  | .err => ⟨-1, false⟩
  | .ok _ => ⟨0, decide (adapterRet < 0)⟩

/-- Full cmdLoad (prints "Load failed." on a negative `myVR.load` result,
still returning 0). -/
def cmdLoadRun (line : List Nat) (paraNum pa0 : Nat) (adapterRet : Int) : HandlerOut :=
  match cmdLoad line paraNum pa0 with
  | .err => ⟨-1, false⟩
  | .ok _ => ⟨0, decide (adapterRet < 0)⟩

/-- `cmdClear`: `ret` is the C return value, `invoked` whether
`myVR.clear()` was called.  (The result of `myVR.clear()` only gates the
"Recognizer cleared." message; the handler returns 0 regardless.) -/
structure ClearOut where
  ret : Int
  invoked : Bool
deriving DecidableEq

def cmdClear (paraNum : Nat) : ClearOut :=
  if paraNum != 1 then ⟨-1, false⟩ else ⟨0, true⟩

/-- `cmdVR`: on wrong arity returns -1; otherwise calls
`myVR.checkRecognizer` and — unlike every other handler — returns -1 when
that delegated call fails (`ret <= 0`), without printing any
delegate-failure diagnostic of its own. -/
def cmdVRRun (paraNum : Nat) (adapterRet : Int) : HandlerOut :=
  if paraNum != 1 then ⟨-1, false⟩
  else if adapterRet ≤ 0 then ⟨-1, false⟩
  else ⟨0, false⟩

/-- `cmdRecord`: no arguments checks all records; with 2..8 parameters the
same argument loop as cmdTrain runs; 9 or more is a format error.
"Check record failed." is printed when `myVR.checkRecord` is negative, and
the handler still returns 0. -/
def cmdRecordRun (line : List Nat) (paraNum pa0 : Nat) (adapterRet : Int) : HandlerOut :=
  if paraNum == 1 then ⟨0, decide (adapterRet < 0)⟩
  else if paraNum < 9 then
    match parseArgsGo line (List.range' 2 (paraNum - 1)) pa0 [] with
    | none => ⟨-1, false⟩
    | some _ => ⟨0, decide (adapterRet < 0)⟩
  else ⟨-1, false⟩

/-- `cmdGetSig`: arity exactly 2, argument 2 a record id; "Get sig error."
(a delegate diagnostic) when `myVR.checkSignature` is negative, return 0
after any delegation. -/
def cmdGetSigRun (line : List Nat) (paraNum pa0 : Nat) (adapterRet : Int) : HandlerOut :=
  if paraNum != 2 then ⟨-1, false⟩
  else
    let pa := match findPara line 2 with | some (p, _) => p | none => pa0
    match parseRecordAt line pa with
    | none => ⟨-1, false⟩
    | some _ => ⟨0, decide (adapterRet < 0)⟩

/-- `cmdTest`: always prints "TEST is not supported." and returns 0. -/
def cmdTestRun (_adapterRet : Int) : HandlerOut := ⟨0, false⟩

/-- The arguments `cmdSigTrain` hands to `myVR.trainWithSignature`:
record id, offset of `paraAddr` (the signature span start) and the `int`
signature length `sig_len`. -/
structure SigTrainCall where
  recNum : Nat
  sigPos : Nat
  sigLen : Int
deriving DecidableEq

inductive SigTrainRes
  | err
  | ok (c : SigTrainCall)
deriving DecidableEq

/-- `cmdSigTrain(len, paraNum)`.  After validating the record id (token 2),
`findPara(len, 3, &paraAddr)` moves `paraAddr` to the third parameter
(on a newline-terminated line this never fails: past the last real token
it lands on the terminator byte with length 0), then
`sig_len = findPara(len, paraNum, &lastAddr); sig_len += lastAddr - paraAddr;`.
The pointer difference is computed in the platform's unsigned word and
added into an `int`; offsets differ by less than the line-buffer size 65,
so the wrapped sum equals the mathematical value below.
The `none` branch of the last match is unreachable for newline-terminated
lines (`lastAddr` would be an uninitialised stack variable in C). -/
def cmdSigTrain (line : List Nat) (paraNum : Nat) (pa0 : Nat) : SigTrainRes :=
  if paraNum < 2 then .err
  else
    let pa2 := match findPara line 2 with | some (p, _) => p | none => pa0
    match parseRecordAt line pa2 with
    | none => .err
    | some r =>
      let pa3 := match findPara line 3 with | some (p, _) => p | none => pa2
      match findPara line paraNum with
      | some (pLast, lenLast) =>
        .ok ⟨r, pa3, (lenLast : Int) + ((pLast : Int) - (pa3 : Int))⟩
      | none => .ok ⟨r, pa3, -1⟩

/-- Full cmdSigTrain ("Train failed." on a negative adapter result,
return 0 after delegation). -/
def cmdSigTrainRun (line : List Nat) (paraNum pa0 : Nat) (adapterRet : Int) : HandlerOut :=
  match cmdSigTrain line paraNum pa0 with
  | .err => ⟨-1, false⟩
  | .ok _ => ⟨0, decide (adapterRet < 0)⟩

/-! ### Reply decoders (`printTrain`, `printLoad`) -/

/-- Train status byte: 00 Trained, FE Train Time Out, FF Value out of
range, anything else "Unknown status". -/
inductive TrainStat
  | trained
  | timeout
  | outOfRange
  | unknownStat (b : Nat)
deriving DecidableEq

def trainStat (b : Nat) : TrainStat :=
  if b == 0 then .trained
  else if b == 254 then .timeout
  else if b == 255 then .outOfRange
  else .unknownStat b

/-- Load status byte: 00 Loaded, FC already in recognizer, FD recognizer
full, FE untrained, FF out of range, else unknown. -/
inductive LoadStat
  | loaded
  | alreadyIn
  | full
  | untrained
  | outOfRange
  | unknownStat (b : Nat)
deriving DecidableEq

def loadStat (b : Nat) : LoadStat :=
  if b == 0 then .loaded
  else if b == 252 then .alreadyIn
  else if b == 253 then .full
  else if b == 254 then .untrained
  else if b == 255 then .outOfRange
  else .unknownStat b

/-- Structured output of printTrain: `allOk` is the `len == 0` branch
("Train Finish.", nothing enumerated); `result cnt pairs` prints
"Train success: cnt" and one (record, status) line per pair. -/
inductive TrainDecode
  | allOk
  | result (cnt : Nat) (pairs : List (Nat × TrainStat))
deriving DecidableEq

/-- The `for(i=0; i<len-1; i+=2)` pair loop of printTrain; fuel `len`
covers every iteration (i grows by 2 each step). -/
def trainPairsF : Nat → List Nat → Nat → Nat → List (Nat × TrainStat)
  | 0, _, _, _ => []
  | fuel + 1, buf, len, i =>
    if i < len - 1 then
      (buf.getD (i + 1) 0, trainStat (buf.getD (i + 2) 0)) :: trainPairsF fuel buf len (i + 2)
    else []

def printTrain (buf : List Nat) (len : Nat) : TrainDecode :=
  if len == 0 then .allOk else .result (buf.getD 0 0) (trainPairsF len buf len 0)

/-- Structured output of printLoad (`len == 0` prints "Load Successfully."). -/
inductive LoadDecode
  | allOk
  | result (cnt : Nat) (pairs : List (Nat × LoadStat))
deriving DecidableEq

def loadPairsF : Nat → List Nat → Nat → Nat → List (Nat × LoadStat)
  | 0, _, _, _ => []
  | fuel + 1, buf, len, i =>
    if i < len - 1 then
      (buf.getD (i + 1) 0, loadStat (buf.getD (i + 2) 0)) :: loadPairsF fuel buf len (i + 2)
    else []

def printLoad (buf : List Nat) (len : Nat) : LoadDecode :=
  if len == 0 then .allOk else .result (buf.getD 0 0) (loadPairsF len buf len 0)

/-- Decimal text of a record id (used to state the round-trip property);
correct for every value up to 999, which covers the RecordId range. -/
def decRepr (n : Nat) : List Nat :=
  if n < 10 then [48 + n]
  else if n < 100 then [48 + n / 10, 48 + n % 10]
  else [48 + n / 100, 48 + n / 10 % 10, 48 + n % 10]

/-- The line `"train " ++ t ++ "\n"` (one argument token `t`). -/
def trainLine (t : List Nat) : List Nat := trainW ++ 32 :: (t ++ [10])

/-- The line `"sigtrain " ++ t ++ "\n"` (one argument token `t`). -/
def sigtrainLine (t : List Nat) : List Nat := sigtrainW ++ 32 :: (t ++ [10])

/-! ### Fuel sufficiency and unfolding equations -/

theorem skipTok_length_le (l : List Nat) : (skipTok l).length ≤ l.length := by
  induction l with
  | nil => simp [skipTok]
  | cons b rest ih =>
    by_cases hb : isDelim b
    · simp [skipTok, hb]
    · simp only [skipTok, List.dropWhile] at ih ⊢
      simp only [hb, Bool.not_false]
      simpa using Nat.le_succ_of_le ih

theorem skipTok_tail_length_le (l : List Nat) : ((skipTok l).tail).length ≤ l.length := by
  have h1 := skipTok_length_le l
  have h2 : ((skipTok l).tail).length ≤ (skipTok l).length := by
    cases skipTok l <;> simp
  omega

theorem checkParaNumF_congr :
    ∀ f1 f2 l, l.length ≤ f1 → l.length ≤ f2 → checkParaNumF f1 l = checkParaNumF f2 l := by
  intro f1
  induction f1 with
  | zero =>
    intro f2 l h1 _
    have : l = [] := List.length_eq_zero.mp (Nat.le_zero.mp h1)
    subst this
    cases f2 <;> rfl
  | succ f ih =>
    intro f2 l h1 h2
    cases l with
    | nil => cases f2 <;> rfl
    | cons b rest =>
      cases f2 with
      | zero => simp at h2
      | succ g =>
        simp only [checkParaNumF]
        cases hb : isDelim b
        · simp only [Bool.false_eq_true, if_false]
          have hlen := skipTok_tail_length_le rest
          have := ih g ((skipTok rest).tail) (by simp at h1; omega) (by simp at h2; omega)
          omega
        · simp only [if_true]
          exact ih g rest (by simp at h1; omega) (by simp at h2; omega)

theorem checkParaNum_nil : checkParaNum [] = 0 := rfl

theorem checkParaNum_cons_delim {b : Nat} (rest : List Nat) (h : isDelim b = true) :
    checkParaNum (b :: rest) = checkParaNum rest := by
  show checkParaNumF (rest.length + 1) (b :: rest) = checkParaNum rest
  simp only [checkParaNumF, h, if_true]
  rfl

theorem checkParaNum_cons_tok {b : Nat} (rest : List Nat) (h : isDelim b = false) :
    checkParaNum (b :: rest) = 1 + checkParaNum ((skipTok rest).tail) := by
  show checkParaNumF (rest.length + 1) (b :: rest) = _
  simp only [checkParaNumF, h, Bool.false_eq_true, if_false]
  have h1 := checkParaNumF_congr rest.length ((skipTok rest).tail).length ((skipTok rest).tail)
    (skipTok_tail_length_le rest) (Nat.le_refl _)
  have h2 : checkParaNum ((skipTok rest).tail)
      = checkParaNumF ((skipTok rest).tail).length ((skipTok rest).tail) := rfl
  omega

theorem findParaAuxF_congr :
    ∀ f1 f2 l pos rem, l.length + rem < f1 → l.length + rem < f2 →
      findParaAuxF f1 l pos rem = findParaAuxF f2 l pos rem := by
  intro f1
  induction f1 with
  | zero => intro f2 l pos rem h1 _; omega
  | succ f ih =>
    intro f2 l pos rem h1 h2
    cases l with
    | nil => cases f2 with | zero => omega | succ g => rfl
    | cons b rest =>
      cases f2 with
      | zero => omega
      | succ g =>
        simp only [findParaAuxF]
        cases hb : isSep b
        · simp only [Bool.false_eq_true, if_false]
          cases hr : rem == 0
          · simp only [Bool.false_eq_true, if_false]
            have hrem : 1 ≤ rem := Nat.one_le_iff_ne_zero.mpr (by simpa using hr)
            have hsk : (skipTok (b :: rest)).length ≤ rest.length + 1 := skipTok_length_le _
            exact ih g _ _ _ (by simp at h1 ⊢; omega) (by simp at h2 ⊢; omega)
          · simp only [if_true]
        · simp only [if_true]
          exact ih g rest (pos + 1) rem (by simp at h1 ⊢; omega) (by simp at h2 ⊢; omega)

theorem findParaAux_nil (pos rem : Nat) : findParaAux [] pos rem = none := rfl

theorem findParaAux_sep {b : Nat} (rest : List Nat) (pos rem : Nat) (h : isSep b = true) :
    findParaAux (b :: rest) pos rem = findParaAux rest (pos + 1) rem := by
  show findParaAuxF (rest.length + 1 + rem + 1) (b :: rest) pos rem = _
  simp only [findParaAuxF, h, if_true]
  exact findParaAuxF_congr _ _ _ _ _ (by omega) (by omega)

theorem findParaAux_hit {b : Nat} (rest : List Nat) (pos : Nat) (h : isSep b = false) :
    findParaAux (b :: rest) pos 0 = some (pos, tokenLen (b :: rest)) := by
  show findParaAuxF (rest.length + 1 + 0 + 1) (b :: rest) pos 0 = _
  simp [findParaAuxF, h]

theorem findParaAux_skip {b : Nat} (rest : List Nat) (pos r : Nat) (h : isSep b = false) :
    findParaAux (b :: rest) pos (r + 1) =
      findParaAux (skipTok (b :: rest)) (pos + tokenLen (b :: rest)) r := by
  show findParaAuxF (rest.length + 1 + (r + 1) + 1) (b :: rest) pos (r + 1) = _
  simp only [findParaAuxF, h, if_false]
  have : ((r + 1 : Nat) == 0) = false := by simp
  simp only [this, if_false, Nat.add_sub_cancel]
  have hsk : (skipTok (b :: rest)).length ≤ rest.length + 1 := skipTok_length_le _
  exact findParaAuxF_congr _ _ _ _ _ (by omega) (by omega)

/-! ### Structure of `tokenLen` / `skipTok` / `checkParaNum` / `findPara` -/

theorem isSep_false_of_term {b : Nat} (h : isTerm b = true) : isSep b = false := by
  simp [isTerm] at h
  rcases h with rfl | rfl <;> decide

theorem isDelim_of_term {b : Nat} (h : isTerm b = true) : isDelim b = true := by
  simp [isDelim, h]

theorem isDelim_false_parts {b : Nat} (h : isDelim b = false) :
    isSep b = false ∧ isTerm b = false := by
  simpa [isDelim] using h

theorem tokenLen_cons_delim {b : Nat} (l : List Nat) (h : isDelim b = true) :
    tokenLen (b :: l) = 0 := by
  simp [tokenLen, h]

theorem tokenLen_cons_nd {b : Nat} (l : List Nat) (h : isDelim b = false) :
    tokenLen (b :: l) = 1 + tokenLen l := by
  simp [tokenLen, h, Nat.add_comm]

theorem skipTok_cons_delim {b : Nat} (l : List Nat) (h : isDelim b = true) :
    skipTok (b :: l) = b :: l := by
  simp [skipTok, h]

theorem skipTok_cons_nd {b : Nat} (l : List Nat) (h : isDelim b = false) :
    skipTok (b :: l) = skipTok l := by
  simp [skipTok, h]

theorem skipTok_append10 : ∀ body : List Nat, skipTok (body ++ [10]) = skipTok body ++ [10] := by
  intro body
  induction body with
  | nil => decide
  | cons b rest ih =>
    by_cases hb : isDelim b
    · simp [skipTok_cons_delim _ hb]
    · have hb' : isDelim b = false := by simpa using hb
      simpa [skipTok_cons_nd _ hb'] using ih

theorem tokenLen_append10 : ∀ body : List Nat, tokenLen (body ++ [10]) = tokenLen body := by
  intro body
  induction body with
  | nil => decide
  | cons b rest ih =>
    by_cases hb : isDelim b
    · simp [tokenLen_cons_delim _ hb]
    · have hb' : isDelim b = false := by simpa using hb
      simp [tokenLen_cons_nd _ hb', ih]

theorem skipTok_head_delim : ∀ (l : List Nat) d ds, skipTok l = d :: ds → isDelim d = true := by
  intro l
  induction l with
  | nil => intro d ds h; simp [skipTok] at h
  | cons b rest ih =>
    intro d ds h
    by_cases hb : isDelim b
    · rw [skipTok_cons_delim _ hb] at h
      cases h
      exact hb
    · have hb' : isDelim b = false := by simpa using hb
      rw [skipTok_cons_nd _ hb'] at h
      exact ih d ds h

theorem mem_skipTok : ∀ (l : List Nat) x, x ∈ skipTok l → x ∈ l := by
  intro l
  induction l with
  | nil => intro x h; simp [skipTok] at h
  | cons b rest ih =>
    intro x h
    by_cases hb : isDelim b
    · rwa [skipTok_cons_delim _ hb] at h
    · have hb' : isDelim b = false := by simpa using hb
      rw [skipTok_cons_nd _ hb'] at h
      exact List.mem_cons_of_mem _ (ih x h)

/-- A run of non-delimiter bytes followed by a delimiter-headed suffix is
measured exactly by `tokenLen` (`rest.headD 10`: the default keeps the
statement true for `rest = []` as well). -/
theorem tokenLen_token (T rest : List Nat) (hT : ∀ b ∈ T, isDelim b = false)
    (hr : isDelim (rest.headD 10) = true) : tokenLen (T ++ rest) = T.length := by
  induction T with
  | nil =>
    cases rest with
    | nil => simp [tokenLen]
    | cons c rs =>
      have hc : isDelim c = true := by simpa using hr
      simpa using tokenLen_cons_delim rs hc
  | cons t T' ih =>
    have ht : isDelim t = false := hT t (List.mem_cons_self _ _)
    rw [List.cons_append, tokenLen_cons_nd _ ht,
      ih (fun b hb => hT b (List.mem_cons_of_mem _ hb))]
    simp [Nat.add_comm]

theorem skipTok_token (T rest : List Nat) (hT : ∀ b ∈ T, isDelim b = false)
    (hr : isDelim (rest.headD 10) = true) : skipTok (T ++ rest) = rest := by
  induction T with
  | nil =>
    cases rest with
    | nil => simp [skipTok]
    | cons c rs =>
      have hc : isDelim c = true := by simpa using hr
      exact skipTok_cons_delim rs hc
  | cons t T' ih =>
    have ht : isDelim t = false := hT t (List.mem_cons_self _ _)
    rw [List.cons_append, skipTok_cons_nd _ ht,
      ih (fun b hb => hT b (List.mem_cons_of_mem _ hb))]

/-- `checkParaNum` of a token followed by a delimiter-headed remainder. -/
theorem checkParaNum_token {c : Nat} (T rs : List Nat) (hT : ∀ b ∈ T, isDelim b = false)
    (hTne : T ≠ []) (hc : isDelim c = true) :
    checkParaNum (T ++ c :: rs) = 1 + checkParaNum rs := by
  cases T with
  | nil => exact absurd rfl hTne
  | cons t T' =>
    have ht : isDelim t = false := hT t (List.mem_cons_self _ _)
    rw [List.cons_append, checkParaNum_cons_tok _ ht,
      skipTok_token T' (c :: rs) (fun b hb => hT b (List.mem_cons_of_mem _ hb)) (by simpa using hc)]
    rfl

/-- On a newline-terminated line, `findPara`'s scan never fails: past the
last real parameter the cursor parks on a terminator byte and each further
requested index is "found" there with length 0. -/
theorem findParaAux_isSome (rem : Nat) :
    ∀ body pos, (findParaAux (body ++ [10]) pos rem).isSome = true := by
  induction rem with
  | zero =>
    intro body
    induction body with
    | nil =>
      intro pos
      rw [List.nil_append, findParaAux_hit _ _ (by decide)]
      rfl
    | cons b body' ih =>
      intro pos
      by_cases hb : isSep b
      · rw [List.cons_append, findParaAux_sep _ _ _ hb]
        exact ih (pos + 1)
      · rw [List.cons_append, findParaAux_hit _ _ (by simpa using hb)]
        rfl
  | succ r ihr =>
    intro body
    induction body with
    | nil =>
      intro pos
      rw [List.nil_append, findParaAux_skip _ _ _ (by decide),
        skipTok_cons_delim _ (by decide)]
      exact ihr [] _
    | cons b body' ih =>
      intro pos
      by_cases hb : isSep b
      · rw [List.cons_append, findParaAux_sep _ _ _ hb]
        exact ih (pos + 1)
      · have hb' : isSep b = false := by simpa using hb
        by_cases hd : isDelim b
        · rw [List.cons_append, findParaAux_skip _ _ _ hb',
            skipTok_cons_delim _ hd]
          show (findParaAux ((b :: body') ++ [10]) _ r).isSome = true
          exact ihr (b :: body') _
        · have hd' : isDelim b = false := by simpa using hd
          rw [List.cons_append, findParaAux_skip _ _ _ hb',
            skipTok_cons_nd _ hd', skipTok_append10]
          exact ihr (skipTok body') _

/-- At a terminator byte the scan is absorbed: every remaining index is
returned as a zero-length parameter at the current offset. -/
theorem findParaAux_term_head (rem : Nat) :
    ∀ (b : Nat) rest pos, isTerm b = true →
      findParaAux (b :: rest) pos rem = some (pos, 0) := by
  induction rem with
  | zero =>
    intro b rest pos hb
    rw [findParaAux_hit _ _ (isSep_false_of_term hb),
      tokenLen_cons_delim _ (isDelim_of_term hb)]
  | succ r ih =>
    intro b rest pos hb
    rw [findParaAux_skip _ _ _ (isSep_false_of_term hb),
      skipTok_cons_delim _ (isDelim_of_term hb),
      tokenLen_cons_delim _ (isDelim_of_term hb), Nat.add_zero]
    exact ih b rest pos hb

/-- Past the counted parameters the result is a zero-length span. -/
theorem findParaAux_past_count (rem : Nat) :
    ∀ body pos, checkParaNum (body ++ [10]) ≤ rem →
      ∃ p, findParaAux (body ++ [10]) pos rem = some (p, 0) := by
  induction rem with
  | zero =>
    intro body
    induction body with
    | nil =>
      intro pos _
      exact ⟨pos, findParaAux_term_head 0 10 [] pos (by decide)⟩
    | cons b body' ih =>
      intro pos hcnt
      by_cases hb : isSep b
      · rw [List.cons_append, findParaAux_sep _ _ _ hb]
        rw [List.cons_append, checkParaNum_cons_delim _ (by simp [isDelim, hb])] at hcnt
        exact ih (pos + 1) hcnt
      · have hb' : isSep b = false := by simpa using hb
        by_cases ht : isTerm b
        · exact ⟨pos, by rw [List.cons_append]; exact findParaAux_term_head 0 b _ pos ht⟩
        · have ht' : isTerm b = false := by simpa using ht
          have hd : isDelim b = false := by simp [isDelim, hb', ht']
          rw [List.cons_append, checkParaNum_cons_tok _ hd] at hcnt
          omega
  | succ r ihr =>
    intro body
    induction body with
    | nil =>
      intro pos _
      exact ⟨pos, findParaAux_term_head (r + 1) 10 [] pos (by decide)⟩
    | cons b body' ih =>
      intro pos hcnt
      by_cases hb : isSep b
      · rw [List.cons_append, findParaAux_sep _ _ _ hb]
        rw [List.cons_append, checkParaNum_cons_delim _ (by simp [isDelim, hb])] at hcnt
        exact ih (pos + 1) hcnt
      · have hb' : isSep b = false := by simpa using hb
        by_cases ht : isTerm b
        · exact ⟨pos, by rw [List.cons_append]; exact findParaAux_term_head (r + 1) b _ pos ht⟩
        · have ht' : isTerm b = false := by simpa using ht
          have hd : isDelim b = false := by simp [isDelim, hb', ht']
          rw [List.cons_append, checkParaNum_cons_tok _ hd, skipTok_append10] at hcnt
          rw [List.cons_append, findParaAux_skip _ _ _ hb', skipTok_cons_nd _ hd,
            skipTok_append10]
          apply ihr (skipTok body')
          rcases hS : skipTok body' with _ | ⟨d, ds⟩
          · have h0 : checkParaNum ([] ++ [10]) = 0 := by decide
            omega
          · have hdd : isDelim d = true := skipTok_head_delim body' d ds hS
            rw [hS] at hcnt
            rw [List.cons_append, checkParaNum_cons_delim _ hdd]
            rw [List.cons_append, List.tail_cons] at hcnt
            omega

/-- Within the counted parameters of a line with no interior CR/LF every
parameter found has positive length. -/
theorem findParaAux_in_count (rem : Nat) :
    ∀ body pos, (∀ b ∈ body, isTerm b = false) →
      rem < checkParaNum (body ++ [10]) →
      ∃ p L, findParaAux (body ++ [10]) pos rem = some (p, L) ∧ 0 < L := by
  induction rem with
  | zero =>
    intro body
    induction body with
    | nil =>
      intro pos _ hcnt
      have h0 : checkParaNum ([] ++ [10]) = 0 := by decide
      omega
    | cons b body' ih =>
      intro pos hterm hcnt
      have hbt : isTerm b = false := hterm b (List.mem_cons_self _ _)
      by_cases hb : isSep b
      · rw [List.cons_append, findParaAux_sep _ _ _ hb]
        rw [List.cons_append, checkParaNum_cons_delim _ (by simp [isDelim, hb])] at hcnt
        exact ih (pos + 1) (fun x hx => hterm x (List.mem_cons_of_mem _ hx)) hcnt
      · have hb' : isSep b = false := by simpa using hb
        have hd : isDelim b = false := by simp [isDelim, hbt, hb']
        rw [List.cons_append, findParaAux_hit _ _ hb', tokenLen_cons_nd _ hd]
        exact ⟨pos, 1 + tokenLen (body' ++ [10]), rfl, by omega⟩
  | succ r ihr =>
    intro body
    induction body with
    | nil =>
      intro pos _ hcnt
      have h0 : checkParaNum ([] ++ [10]) = 0 := by decide
      omega
    | cons b body' ih =>
      intro pos hterm hcnt
      have hbt : isTerm b = false := hterm b (List.mem_cons_self _ _)
      by_cases hb : isSep b
      · rw [List.cons_append, findParaAux_sep _ _ _ hb]
        rw [List.cons_append, checkParaNum_cons_delim _ (by simp [isDelim, hb])] at hcnt
        exact ih (pos + 1) (fun x hx => hterm x (List.mem_cons_of_mem _ hx)) hcnt
      · have hb' : isSep b = false := by simpa using hb
        have hd : isDelim b = false := by simp [isDelim, hbt, hb']
        rw [List.cons_append, checkParaNum_cons_tok _ hd, skipTok_append10] at hcnt
        rw [List.cons_append, findParaAux_skip _ _ _ hb', skipTok_cons_nd _ hd,
          skipTok_append10]
        apply ihr (skipTok body') _ (fun x hx => hterm x (List.mem_cons_of_mem _ (mem_skipTok _ x hx)))
        rcases hS : skipTok body' with _ | ⟨d, ds⟩
        · rw [hS] at hcnt
          have h0 : checkParaNum (([] ++ [10]) : List Nat).tail = 0 := by decide
          omega
        · have hdd : isDelim d = true := skipTok_head_delim body' d ds hS
          rw [hS] at hcnt
          have hg : checkParaNum ((d :: ds) ++ [10]) = checkParaNum (ds ++ [10]) := by
            rw [List.cons_append, checkParaNum_cons_delim _ hdd]
          have hh : (((d :: ds) ++ [10]) : List Nat).tail = ds ++ [10] := by simp
          rw [hh] at hcnt
          omega

/-- `findPara` wrapper of the three facts above. -/
theorem findPara_terminated (body : List Nat) (i : Nat) (hi : 1 ≤ i) :
    (findPara (body ++ [10]) i).isSome = true ∧
    (checkParaNum (body ++ [10]) < i →
      ∃ p, findPara (body ++ [10]) i = some (p, 0)) := by
  have hiz : (i == 0) = false := by simp; omega
  constructor
  · rw [findPara, hiz, if_neg (by simp)]
    exact findParaAux_isSome (i - 1) body 0
  · intro hcnt
    rw [findPara, hiz, if_neg (by simp)]
    exact findParaAux_past_count (i - 1) body 0 (by omega)

theorem findPara_token_positive (body : List Nat) (i : Nat)
    (hterm : ∀ b ∈ body, isTerm b = false) (h1 : 1 ≤ i)
    (h2 : i ≤ checkParaNum (body ++ [10])) :
    ∃ p L, findPara (body ++ [10]) i = some (p, L) ∧ 0 < L := by
  rw [findPara, if_neg (by simp; omega)]
  exact findParaAux_in_count (i - 1) body 0 hterm (by omega)

/-! ### Lines of the shape `word ++ " " ++ token ++ "\n"` -/

theorem nd_of_printable {b : Nat} (h : 32 < b ∧ b < 127) : isDelim b = false := by
  simp only [isDelim, isSep, isTerm, Bool.or_eq_false_iff, beq_eq_false_iff_ne, ne_eq]
  omega

theorem ws_of_printable {b : Nat} (h : 32 < b ∧ b < 127) : atoiWs b = false := by
  simp only [atoiWs, Bool.or_eq_false_iff, beq_eq_false_iff_ne, ne_eq]
  omega

/-- `findParaAux_skip` with the remaining-count literals the wrappers produce. -/
theorem findParaAux_skip1 {b : Nat} (rest : List Nat) (pos : Nat) (h : isSep b = false) :
    findParaAux (b :: rest) pos 1 =
      findParaAux (skipTok (b :: rest)) (pos + tokenLen (b :: rest)) 0 :=
  findParaAux_skip rest pos 0 h

theorem findParaAux_skip2 {b : Nat} (rest : List Nat) (pos : Nat) (h : isSep b = false) :
    findParaAux (b :: rest) pos 2 =
      findParaAux (skipTok (b :: rest)) (pos + tokenLen (b :: rest)) 1 :=
  findParaAux_skip rest pos 1 h

theorem findPara_two_tok_1 (w1 t : List Nat) (hw : w1 ≠ [])
    (hwn : ∀ b ∈ w1, isDelim b = false) :
    findPara (w1 ++ 32 :: (t ++ [10])) 1 = some (0, w1.length) := by
  cases w1 with
  | nil => exact absurd rfl hw
  | cons a w1' =>
    have ha : isDelim a = false := hwn a (List.mem_cons_self _ _)
    have has : isSep a = false := (isDelim_false_parts ha).1
    show findParaAux ((a :: w1') ++ 32 :: (t ++ [10])) 0 0 = _
    rw [List.cons_append, findParaAux_hit _ _ has, ← List.cons_append,
      tokenLen_token (a :: w1') (32 :: (t ++ [10])) hwn (by rw [List.headD_cons]; decide)]

theorem findPara_two_tok_2 (w1 t : List Nat) (hw : w1 ≠ [])
    (hwn : ∀ b ∈ w1, isDelim b = false) (ht : t ≠ [])
    (htn : ∀ b ∈ t, isDelim b = false) :
    findPara (w1 ++ 32 :: (t ++ [10])) 2 = some (w1.length + 1, t.length) := by
  cases w1 with
  | nil => exact absurd rfl hw
  | cons a w1' =>
    have ha : isDelim a = false := hwn a (List.mem_cons_self _ _)
    have has : isSep a = false := (isDelim_false_parts ha).1
    show findParaAux ((a :: w1') ++ 32 :: (t ++ [10])) 0 1 = _
    rw [List.cons_append, findParaAux_skip1 _ _ has, ← List.cons_append,
      skipTok_token (a :: w1') (32 :: (t ++ [10])) hwn (by rw [List.headD_cons]; decide),
      tokenLen_token (a :: w1') (32 :: (t ++ [10])) hwn (by rw [List.headD_cons]; decide),
      findParaAux_sep _ _ _ (by decide)]
    cases t with
    | nil => exact absurd rfl ht
    | cons c t' =>
      have hc : isDelim c = false := htn c (List.mem_cons_self _ _)
      have hcs : isSep c = false := (isDelim_false_parts hc).1
      rw [List.cons_append, findParaAux_hit _ _ hcs, ← List.cons_append,
        tokenLen_token (c :: t') [10] htn (by rw [List.headD_cons]; decide)]
      simp [Nat.add_comm]

theorem findPara_two_tok_3 (w1 t : List Nat) (hw : w1 ≠ [])
    (hwn : ∀ b ∈ w1, isDelim b = false) (ht : t ≠ [])
    (htn : ∀ b ∈ t, isDelim b = false) :
    findPara (w1 ++ 32 :: (t ++ [10])) 3 = some (w1.length + 1 + t.length, 0) := by
  cases w1 with
  | nil => exact absurd rfl hw
  | cons a w1' =>
    have ha : isDelim a = false := hwn a (List.mem_cons_self _ _)
    have has : isSep a = false := (isDelim_false_parts ha).1
    show findParaAux ((a :: w1') ++ 32 :: (t ++ [10])) 0 2 = _
    rw [List.cons_append, findParaAux_skip2 _ _ has, ← List.cons_append,
      skipTok_token (a :: w1') (32 :: (t ++ [10])) hwn (by rw [List.headD_cons]; decide),
      tokenLen_token (a :: w1') (32 :: (t ++ [10])) hwn (by rw [List.headD_cons]; decide),
      findParaAux_sep _ _ _ (by decide)]
    cases t with
    | nil => exact absurd rfl ht
    | cons c t' =>
      have hc : isDelim c = false := htn c (List.mem_cons_self _ _)
      have hcs : isSep c = false := (isDelim_false_parts hc).1
      rw [List.cons_append, findParaAux_skip1 _ _ hcs, ← List.cons_append,
        skipTok_token (c :: t') [10] htn (by rw [List.headD_cons]; decide),
        tokenLen_token (c :: t') [10] htn (by rw [List.headD_cons]; decide),
        findParaAux_hit _ _ (by decide), tokenLen_cons_delim _ (by decide)]
      simp [Nat.add_comm, Nat.add_assoc, Nat.add_left_comm]

theorem checkParaNum_two_tok (w1 t : List Nat) (hw : w1 ≠ [])
    (hwn : ∀ b ∈ w1, isDelim b = false) (ht : t ≠ [])
    (htn : ∀ b ∈ t, isDelim b = false) :
    checkParaNum (w1 ++ 32 :: (t ++ [10])) = 2 := by
  rw [checkParaNum_token w1 _ hwn hw (by decide)]
  have h10 : t ++ [10] = t ++ 10 :: ([] : List Nat) := rfl
  rw [h10, checkParaNum_token t [] htn ht (by decide)]
  rfl

theorem drop_two_tok (w1 t : List Nat) :
    (w1 ++ 32 :: (t ++ [10])).drop (w1.length + 1) = t ++ [10] := by
  have h : w1 ++ 32 :: (t ++ [10]) = (w1 ++ [32]) ++ (t ++ [10]) := by simp
  rw [h, List.drop_left' (by simp)]

theorem getD_two_tok (w1 t : List Nat) :
    (w1 ++ 32 :: (t ++ [10])).getD (w1.length + 1) 0 = (t ++ [10]).getD 0 0 := by
  have h : w1 ++ 32 :: (t ++ [10]) = (w1 ++ [32]) ++ (t ++ [10]) := by simp
  rw [h, List.getD_append_right _ _ _ _ (by simp)]
  simp

/-! ### `atoi` facts -/

theorem atoiDigits_append10 : ∀ (x : List Nat) (acc : Int),
    atoiDigits (x ++ [10]) acc = atoiDigits x acc := by
  intro x
  induction x with
  | nil => intro acc; simp [atoiDigits, isDigitByte]
  | cons b x' ih =>
    intro acc
    cases hb : isDigitByte b
    · simp [atoiDigits, hb]
    · simp [atoiDigits, hb, ih]

theorem atoi_append10 (t : List Nat) (hws : ∀ b ∈ t, atoiWs b = false) :
    atoi (t ++ [10]) = atoi t := by
  cases t with
  | nil => decide
  | cons c t' =>
    have hc : atoiWs c = false := hws c (List.mem_cons_self _ _)
    have hd1 : ((c :: t') ++ [10]).dropWhile atoiWs = c :: (t' ++ [10]) := by
      rw [List.cons_append]
      exact List.dropWhile_cons_of_neg (by simp [hc])
    have hd2 : (c :: t').dropWhile atoiWs = c :: t' :=
      List.dropWhile_cons_of_neg (by simp [hc])
    simp only [atoi, hd1, hd2, List.headD_cons, List.tail_cons]
    by_cases h45 : c = 45
    · simp [h45, atoiDigits_append10]
    · by_cases h43 : c = 43
      · simp [h43, atoiDigits_append10]
      · have e45 : (c == 45) = false := by simpa using h45
        have e43 : (c == 43) = false := by simpa using h43
        simp only [e45, e43, Bool.false_eq_true, if_false]
        exact atoiDigits_append10 (c :: t') 0

/-- The argument-validation step at the second parameter of a
`word ++ " " ++ t ++ "\n"` line, expressed through `atoi t`. -/
theorem parseRecordAt_two_tok (w1 t : List Nat) (ht : t ≠ [])
    (hws : ∀ b ∈ t, atoiWs b = false) :
    parseRecordAt (w1 ++ 32 :: (t ++ [10])) (w1.length + 1) =
      (if ((atoi t).emod 256).toNat = 0 ∧ t.headD 0 ≠ 48 then none
       else some ((atoi t).emod 256).toNat) := by
  have hget : (w1 ++ 32 :: (t ++ [10])).getD (w1.length + 1) 0 = t.headD 0 := by
    rw [getD_two_tok]
    cases t with
    | nil => exact absurd rfl ht
    | cons c t' => simp
  simp only [parseRecordAt, drop_two_tok, atoi_append10 t hws, hget]
  by_cases hz : ((atoi t).emod 256).toNat = 0 ∧ t.headD 0 ≠ 48
  · rw [if_pos hz, if_pos]
    simp only [hz.1, beq_self_eq_true, Bool.true_and]
    simpa using hz.2
  · rw [if_neg hz, if_neg]
    intro hcond
    apply hz
    simp only [Bool.and_eq_true, beq_iff_eq, Bool.not_eq_true', beq_eq_false_iff_ne] at hcond
    exact hcond

/-- cmdTrain on a `"train " ++ t ++ "\n"` line with `paraNum = 2`:
the single argument token is validated exactly by the
`atoi`-mod-256 / first-byte rule. -/
theorem cmdTrain_two_tok (t : List Nat) (ht : t ≠ [])
    (htb : ∀ b ∈ t, 32 < b ∧ b < 127) :
    cmdTrain (trainLine t) 2 0 =
      if ((atoi t).emod 256).toNat = 0 ∧ t.headD 0 ≠ 48 then TrainRes.err
      else TrainRes.ok [((atoi t).emod 256).toNat] := by
  have htn : ∀ b ∈ t, isDelim b = false := fun b hb => nd_of_printable (htb b hb)
  have hws : ∀ b ∈ t, atoiWs b = false := fun b hb => ws_of_printable (htb b hb)
  have h2 : findPara (trainLine t) 2 = some (6, t.length) := by
    have := findPara_two_tok_2 trainW t (by decide) (by decide) ht htn
    simpa [trainLine, trainW] using this
  have hp : parseRecordAt (trainLine t) 6 =
      (if ((atoi t).emod 256).toNat = 0 ∧ t.headD 0 ≠ 48 then none
       else some ((atoi t).emod 256).toNat) := by
    have := parseRecordAt_two_tok trainW t ht hws
    simpa [trainLine, trainW] using this
  have hrange : List.range' 2 (2 - 1) = [2] := rfl
  rw [cmdTrain, if_neg (by decide), hrange]
  simp only [parseArgsGo, h2, hp]
  by_cases hz : ((atoi t).emod 256).toNat = 0 ∧ t.headD 0 ≠ 48
  · rw [if_pos hz, if_pos hz]
  · rw [if_neg hz, if_neg hz]
    simp [parseArgsGo]

/-! Quick sanity checks against hand-traces of the C loops. -/

example : checkParaNum [97, 32, 98, 10] = 2 := by decide
example : checkParaNum [99, 108, 101, 97, 114, 32, 101, 120, 116, 114, 97, 10] = 2 := by decide
example : findPara [97, 32, 98, 10] 1 = some (0, 1) := by decide
example : findPara [97, 32, 98, 10] 2 = some (2, 1) := by decide
-- Past the last real parameter the scan stops at the newline byte and
-- returns it as a zero-length parameter -- it does NOT return -1:
example : findPara [97, 32, 98, 10] 3 = some (3, 0) := by decide
example : findPara [97, 32, 98, 10] 7 = some (3, 0) := by decide
-- An interior carriage return is itself counted as a zero-length parameter:
example : findPara [97, 13, 98, 10] 2 = some (1, 0) := by decide
example : checkParaNum [97, 13, 98, 10] = 2 := by decide
example : compareCMD [84, 82, 65, 73, 78] [116, 114, 97, 105, 110] 5 = false := by decide

-- "train 0 2 14\n"
example :
    dispatch [116, 114, 97, 105, 110, 32, 48, 32, 50, 32, 49, 52, 10]
      = DispatchResult.handled 0 13 4 0 := by decide
-- "TRAIN 0 2 14\n": compareCMD accepts only exactly equal bytes, so the
-- upper-case spelling matches no table entry.
example :
    dispatch [84, 82, 65, 73, 78, 32, 48, 32, 50, 32, 49, 52, 10]
      = DispatchResult.unknown := by decide
example :
    cmdTrain [116, 114, 97, 105, 110, 32, 48, 32, 50, 32, 49, 52, 10] 4 0
      = TrainRes.ok [0, 2, 14] := by decide
-- "clear extra\n"
example :
    dispatch [99, 108, 101, 97, 114, 32, 101, 120, 116, 114, 97, 10]
      = DispatchResult.handled 2 12 2 0 := by decide
-- "train 00\n" is accepted as record 0; "train 255\n" and "train 300\n"
-- are accepted (truncated mod 256); "train 256\n" and "train abc\n" rejected.
example : cmdTrain [116, 114, 97, 105, 110, 32, 48, 48, 10] 2 0 = TrainRes.ok [0] := by decide
example : cmdTrain [116, 114, 97, 105, 110, 32, 50, 53, 53, 10] 2 0 = TrainRes.ok [255] := by decide
example : cmdTrain [116, 114, 97, 105, 110, 32, 51, 48, 48, 10] 2 0 = TrainRes.ok [44] := by decide
example : cmdTrain [116, 114, 97, 105, 110, 32, 50, 53, 54, 10] 2 0 = TrainRes.err := by decide
example : cmdTrain [116, 114, 97, 105, 110, 32, 97, 98, 99, 10] 2 0 = TrainRes.err := by decide
-- "sigtrain 5\n": paraAddr lands on the newline (offset 10), sig_len = 0.
example :
    cmdSigTrain [115, 105, 103, 116, 114, 97, 105, 110, 32, 53, 10] 2 0
      = SigTrainRes.ok ⟨5, 10, 0⟩ := by decide
example : findPara [115, 105, 103, 116, 114, 97, 105, 110, 32, 53, 10] 3 = some (10, 0) := by decide
-- Scenario 4 buffer.
example :
    printTrain [2, 5, 0, 7, 254] 5
      = TrainDecode.result 2 [(5, TrainStat.trained), (7, TrainStat.timeout)] := by decide

/-! ### Claim theorems -/

/-- C2 counterexample: on the line `"a\n"`, `checkParaNum` counts one
parameter, yet `findPara` with index 2 does not report NotFound (-1) — it
returns the newline byte as a zero-length parameter.  This refutes the
claim that `findPara(line, i)` returns NotFound for every
`i > checkParaNum(line)`. -/
theorem C2_counterexample :
    checkParaNum [97, 10] = 1 ∧ findPara [97, 10] 2 ≠ none := by decide

/-- C2 (amended): on every newline-terminated line, `findPara(line, i)`
returns a parameter for every index `i ≥ 1` — in particular for all
`1 ≤ i ≤ checkParaNum(line)` — and for every `i > checkParaNum(line)` the
result is not NotFound but a zero-length parameter (the scan parks on a
terminator byte). -/
theorem C2_amended (body : List Nat) (i : Nat) (hi : 1 ≤ i) :
    (findPara (body ++ [10]) i).isSome = true ∧
    (checkParaNum (body ++ [10]) < i →
      ∃ p, findPara (body ++ [10]) i = some (p, 0)) :=
  findPara_terminated body i hi

theorem C2_amended_witness :
    1 ≤ 2 ∧
    ((findPara ([97] ++ [10]) 2).isSome = true ∧
      (checkParaNum ([97] ++ [10]) < 2 →
        ∃ p, findPara ([97] ++ [10]) 2 = some (p, 0))) :=
  ⟨by decide, C2_amended [97] 2 (by decide)⟩

/-- C3 counterexample: on the line `"a\r\n"` (which contains a
carriage-return byte before the newline) `findPara` with index 2 succeeds
with length 0, refuting the claim that every successful `findPara` result
has strictly positive length. -/
theorem C3_counterexample : findPara [97, 13, 10] 2 = some (1, 0) := by decide

/-- C3 (amended): on a line whose body contains no CR/LF byte before the
final newline, every parameter `findPara` reports within
`1 ≤ i ≤ checkParaNum(line)` has strictly positive length. -/
theorem C3_amended (body : List Nat) (i : Nat)
    (hterm : ∀ b ∈ body, isTerm b = false) (h1 : 1 ≤ i)
    (h2 : i ≤ checkParaNum (body ++ [10])) :
    ∃ p L, findPara (body ++ [10]) i = some (p, L) ∧ 0 < L :=
  findPara_token_positive body i hterm h1 h2

theorem C3_amended_witness :
    (∀ b ∈ ([97, 32, 98] : List Nat), isTerm b = false) ∧ 1 ≤ 2 ∧
    2 ≤ checkParaNum ([97, 32, 98] ++ [10]) ∧
    ∃ p L, findPara ([97, 32, 98] ++ [10]) 2 = some (p, L) ∧ 0 < L :=
  ⟨by decide, by decide, by decide,
    C3_amended [97, 32, 98] 2 (by decide) (by decide) (by decide)⟩

/-- C7: the clear handler rejects every parameter count other than exactly
1 with a failure return (printed as "Command Format Error!") and never
invokes `myVR.clear()` in that case; `clear()` is invoked exactly when
`paraNum = 1`.  Concretely, `"clear extra\n"` dispatches to the clear
handler with `paraNum = 2`, which fails without invoking `clear()`. -/
theorem C7_clear_arity :
    (∀ n : Nat, n ≠ 1 → cmdClear n = ⟨-1, false⟩) ∧
    cmdClear 1 = ⟨0, true⟩ ∧
    dispatch [99, 108, 101, 97, 114, 32, 101, 120, 116, 114, 97, 10]
      = DispatchResult.handled 2 12 2 0 ∧
    cmdClear 2 = ⟨-1, false⟩ := by
  refine ⟨?_, by decide, by decide, by decide⟩
  intro n hn
  have h : (n != 1) = true := by simpa using hn
  simp [cmdClear, h]

theorem C7_clear_arity_witness :
    (2 : Nat) ≠ 1 ∧ cmdClear 2 = ⟨-1, false⟩ :=
  ⟨by decide, C7_clear_arity.1 2 (by decide)⟩

/-- C8: the train-reply decoder maps the buffer
`[0x02, 0x05, 0x00, 0x07, 0xFE]` (length 5) to success-count 2 with pairs
(5, Trained) and (7, Train Time Out), and every length-0 train or load
reply decodes to the "all requested succeeded" result with no pairs. -/
theorem C8_train_load_decode :
    printTrain [2, 5, 0, 7, 254] 5
      = TrainDecode.result 2 [(5, TrainStat.trained), (7, TrainStat.timeout)] ∧
    (∀ buf : List Nat, printTrain buf 0 = TrainDecode.allOk) ∧
    (∀ buf : List Nat, printLoad buf 0 = LoadDecode.allOk) :=
  ⟨by decide, fun _ => rfl, fun _ => rfl⟩

/-- C1 (code bug): the sketch's own documentation says "All commands are
case insensitive" and compareCMD's comment says "compare two commands,
case insensitive", but the compareCMD in the source returns -1 as soon as
the forward `uint8_t` difference `para2[i] - para1[i]` is outside
{0, 0x20} and in the else-branch additionally requires the reverse
difference in {0, 0x20}; the two differences are additive inverses mod
256 (the inverse of 0x20 is 0xE0), so a byte pair passes only when the
bytes are exactly equal.  Matching is therefore case-SENSITIVE:
`compareCMD` reports "TRAIN" unequal to "train", and the line
`"TRAIN 0 2 14\n"` is dispatched as an unknown command instead of
identically to `"train 0 2 14\n"` as the claim (and the code's own
documentation) requires. -/
theorem C1_case_sensitivity_bug :
    (∀ a b : Nat, a < 256 → b < 256 → (byteCaseEq a b = true ↔ a = b)) ∧
    compareCMD [84, 82, 65, 73, 78] trainW 5 = false ∧
    dispatch [84, 82, 65, 73, 78, 32, 48, 32, 50, 32, 49, 52, 10]
      = DispatchResult.unknown ∧
    dispatch [116, 114, 97, 105, 110, 32, 48, 32, 50, 32, 49, 52, 10]
      = DispatchResult.handled 0 13 4 0 := by
  refine ⟨?_, by decide, by decide, by decide⟩
  intro a b ha hb
  simp only [byteCaseEq, Bool.and_eq_true, Bool.or_eq_true, beq_iff_eq]
  omega

theorem C1_case_sensitivity_bug_witness :
    (84 : Nat) < 256 ∧ (116 : Nat) < 256 ∧ (byteCaseEq 84 116 = true ↔ 84 = 116) :=
  ⟨by decide, by decide, C1_case_sensitivity_bug.1 84 116 (by decide) (by decide)⟩

/-- C4 counterexample: the token "00" decimal-parses to 0 yet the train
handler accepts it as RecordId 0 (delegating `train([0])`) instead of
returning the format error the claim requires. -/
theorem C4_counterexample :
    cmdTrain (trainLine [48, 48]) (checkParaNum (trainLine [48, 48])) 0
      = TrainRes.ok [0] ∧ TrainRes.ok [0] ≠ TrainRes.err := by decide

/-- C4 (amended): the handlers accept a token as RecordId 0 exactly when
its `atoi` value truncated to `uint8_t` is 0 AND its first byte is the
character '0' — so among zero-parsing tokens only those starting with '0'
are accepted, which includes "00" as well as the literal "0". -/
theorem C4_amended (t : List Nat) (ht : t ≠ []) (htb : ∀ b ∈ t, 32 < b ∧ b < 127) :
    (cmdTrain (trainLine t) 2 0 = TrainRes.ok [0]
      ↔ ((atoi t).emod 256).toNat = 0 ∧ t.headD 0 = 48) ∧
    cmdTrain (trainLine [48, 48]) 2 0 = TrainRes.ok [0] := by
  refine ⟨?_, by decide⟩
  rw [cmdTrain_two_tok t ht htb]
  by_cases hz : ((atoi t).emod 256).toNat = 0
  · by_cases hh : t.headD 0 = 48
    · simp [hz, hh]
    · simp [hz, hh]
  · simp [hz]

theorem C4_amended_witness :
    ([48, 48] : List Nat) ≠ [] ∧ (∀ b ∈ ([48, 48] : List Nat), 32 < b ∧ b < 127) ∧
    ((cmdTrain (trainLine [48, 48]) 2 0 = TrainRes.ok [0]
        ↔ ((atoi [48, 48]).emod 256).toNat = 0 ∧ ([48, 48] : List Nat).headD 0 = 48) ∧
      cmdTrain (trainLine [48, 48]) 2 0 = TrainRes.ok [0]) :=
  ⟨by decide, by decide, C4_amended [48, 48] (by decide) (by decide)⟩

/-- C5 counterexample: the train handler accepts the token "255"
(delegating `train([255])`) instead of returning the format error the
claim requires for values outside 0..254. -/
theorem C5_counterexample :
    cmdTrain (trainLine [50, 53, 53]) (checkParaNum (trainLine [50, 53, 53])) 0
      = TrainRes.ok [255] ∧ TrainRes.ok [255] ≠ TrainRes.err := by decide

/-- C5 (amended): the train/load argument tokens carry no 0..254 range
check: the `atoi` value is truncated to `uint8_t` (mod 256) and accepted
whenever the truncated value is nonzero or the first byte is '0'; in
particular "255" is accepted as record 255 and "300" as record 44. -/
theorem C5_amended (t : List Nat) (ht : t ≠ []) (htb : ∀ b ∈ t, 32 < b ∧ b < 127) :
    (checkParaNum (trainLine t) = 2 ∧
      cmdTrain (trainLine t) 2 0 =
        (if ((atoi t).emod 256).toNat = 0 ∧ t.headD 0 ≠ 48 then TrainRes.err
         else TrainRes.ok [((atoi t).emod 256).toNat])) ∧
    cmdTrain (trainLine [50, 53, 53]) 2 0 = TrainRes.ok [255] ∧
    cmdTrain (trainLine [51, 48, 48]) 2 0 = TrainRes.ok [44] := by
  refine ⟨⟨?_, cmdTrain_two_tok t ht htb⟩, by decide, by decide⟩
  have h := checkParaNum_two_tok trainW t (by decide) (by decide) ht
    (fun b hb => nd_of_printable (htb b hb))
  simpa [trainLine] using h

theorem C5_amended_witness :
    ([50, 53, 53] : List Nat) ≠ [] ∧
    (∀ b ∈ ([50, 53, 53] : List Nat), 32 < b ∧ b < 127) ∧
    ((checkParaNum (trainLine [50, 53, 53]) = 2 ∧
      cmdTrain (trainLine [50, 53, 53]) 2 0 =
        (if ((atoi [50, 53, 53]).emod 256).toNat = 0 ∧ ([50, 53, 53] : List Nat).headD 0 ≠ 48
         then TrainRes.err
         else TrainRes.ok [((atoi [50, 53, 53]).emod 256).toNat])) ∧
      cmdTrain (trainLine [50, 53, 53]) 2 0 = TrainRes.ok [255] ∧
      cmdTrain (trainLine [51, 48, 48]) 2 0 = TrainRes.ok [44]) :=
  ⟨by decide, by decide, C5_amended [50, 53, 53] (by decide) (by decide)⟩

/-- C6 counterexample: the vr handler, with correct arity (paraNum = 1)
and a failed delegated `checkRecognizer` call (result 0), returns -1 to
the dispatcher — which prints "Command Format Error!" — while printing no
delegate-failure diagnostic of its own.  This refutes the claim that a
delegate failure is never reported as CommandFormatError. -/
theorem C6_counterexample :
    (cmdVRRun 1 0).ret = -1 ∧ (cmdVRRun 1 0).delegateFailed = false := by decide

/-- C6 (amended): every handler except vr returns a value independent of
the delegated operation's result — in particular success (0) whenever its
own validation passed — but the vr handler returns -1 (reported by the
dispatcher as CommandFormatError) exactly when `checkRecognizer` returns
a non-positive result. -/
theorem C6_amended :
    (∀ (line : List Nat) (paraNum pa0 : Nat) (r : Int),
      (cmdTrainRun line paraNum pa0 r).ret = (cmdTrainRun line paraNum pa0 0).ret) ∧
    (∀ (line : List Nat) (paraNum pa0 : Nat) (r : Int),
      (cmdLoadRun line paraNum pa0 r).ret = (cmdLoadRun line paraNum pa0 0).ret) ∧
    (∀ (line : List Nat) (paraNum pa0 : Nat) (r : Int),
      (cmdRecordRun line paraNum pa0 r).ret = (cmdRecordRun line paraNum pa0 0).ret) ∧
    (∀ (line : List Nat) (paraNum pa0 : Nat) (r : Int),
      (cmdSigTrainRun line paraNum pa0 r).ret = (cmdSigTrainRun line paraNum pa0 0).ret) ∧
    (∀ (line : List Nat) (paraNum pa0 : Nat) (r : Int),
      (cmdGetSigRun line paraNum pa0 r).ret = (cmdGetSigRun line paraNum pa0 0).ret) ∧
    (∀ r : Int, (cmdTestRun r).ret = 0) ∧
    (∀ (line : List Nat) (paraNum pa0 : Nat) (rs : List Nat) (r : Int),
      cmdTrain line paraNum pa0 = TrainRes.ok rs → (cmdTrainRun line paraNum pa0 r).ret = 0) ∧
    (∀ r : Int, r ≤ 0 → cmdVRRun 1 r = ⟨-1, false⟩) ∧
    (∀ r : Int, 0 < r → cmdVRRun 1 r = ⟨0, false⟩) := by
  refine ⟨?_, ?_, ?_, ?_, ?_, fun _ => rfl, ?_, ?_, ?_⟩
  · intro line paraNum pa0 r
    cases h : cmdTrain line paraNum pa0 <;> simp [cmdTrainRun, h]
  · intro line paraNum pa0 r
    cases h : cmdLoad line paraNum pa0 <;> simp [cmdLoadRun, h]
  · intro line paraNum pa0 r
    simp only [cmdRecordRun]
    split
    · rfl
    · split
      · rcases h : parseArgsGo line (List.range' 2 (paraNum - 1)) pa0 [] <;> simp [h]
      · rfl
  · intro line paraNum pa0 r
    cases h : cmdSigTrain line paraNum pa0 <;> simp [cmdSigTrainRun, h]
  · intro line paraNum pa0 r
    simp only [cmdGetSigRun]
    split
    · rfl
    · rcases h : parseRecordAt line
        (match findPara line 2 with | some (p, _) => p | none => pa0) <;> simp [h]
  · intro line paraNum pa0 rs r h
    simp [cmdTrainRun, h]
  · intro r hr
    have h1 : ((1 : Nat) != 1) = false := by decide
    simp [cmdVRRun, h1, hr]
  · intro r hr
    have h1 : ((1 : Nat) != 1) = false := by decide
    have h2 : ¬r ≤ 0 := by omega
    simp [cmdVRRun, h1, h2]

theorem C6_amended_witness :
    ((-1 : Int) ≤ 0) ∧ cmdVRRun 1 (-1) = ⟨-1, false⟩ :=
  ⟨by decide, C6_amended.2.2.2.2.2.2.2.1 (-1) (by decide)⟩

/-- C10 counterexample: on `"sigtrain 5\n"` (exactly two tokens),
`findPara` for token 3 does NOT return NotFound — it returns the newline
at offset 10 with length 0 and updates `paraAddr` to it — and
`trainWithSignature` is invoked with the newline's address and signature
length 0, not with the record-id token's span (offset 9, length 1). -/
theorem C10_counterexample :
    findPara [115, 105, 103, 116, 114, 97, 105, 110, 32, 53, 10] 3 ≠ none ∧
    cmdSigTrain [115, 105, 103, 116, 114, 97, 105, 110, 32, 53, 10] 2 0
      ≠ SigTrainRes.ok ⟨5, 9, 1⟩ ∧
    cmdSigTrain [115, 105, 103, 116, 114, 97, 105, 110, 32, 53, 10] 2 0
      = SigTrainRes.ok ⟨5, 10, 0⟩ := by decide

/-- C10 (amended): for a sigtrain line with exactly two tokens and an
accepted record-id token, `findPara(len, 3, &paraAddr)` succeeds with the
zero-length span at the line terminator (offset 9 + |token|), so
`trainWithSignature` is invoked with the terminator's address as the
signature span and computed signature length 0 (the token length plus the
negative pointer difference cancel). -/
theorem C10_amended (t : List Nat) (ht : t ≠ []) (htb : ∀ b ∈ t, 32 < b ∧ b < 127)
    (hacc : ¬(((atoi t).emod 256).toNat = 0 ∧ t.headD 0 ≠ 48)) :
    checkParaNum (sigtrainLine t) = 2 ∧
    findPara (sigtrainLine t) 3 = some (9 + t.length, 0) ∧
    cmdSigTrain (sigtrainLine t) 2 0 =
      SigTrainRes.ok ⟨((atoi t).emod 256).toNat, 9 + t.length, 0⟩ := by
  have htn : ∀ b ∈ t, isDelim b = false := fun b hb => nd_of_printable (htb b hb)
  have hws : ∀ b ∈ t, atoiWs b = false := fun b hb => ws_of_printable (htb b hb)
  have hcnt : checkParaNum (sigtrainLine t) = 2 := by
    have h := checkParaNum_two_tok sigtrainW t (by decide) (by decide) ht htn
    simpa [sigtrainLine] using h
  have h2 : findPara (sigtrainLine t) 2 = some (9, t.length) := by
    have h := findPara_two_tok_2 sigtrainW t (by decide) (by decide) ht htn
    simpa [sigtrainLine, sigtrainW] using h
  have h3 : findPara (sigtrainLine t) 3 = some (9 + t.length, 0) := by
    have h := findPara_two_tok_3 sigtrainW t (by decide) (by decide) ht htn
    simpa [sigtrainLine, sigtrainW] using h
  have hp : parseRecordAt (sigtrainLine t) 9 =
      (if ((atoi t).emod 256).toNat = 0 ∧ t.headD 0 ≠ 48 then none
       else some ((atoi t).emod 256).toNat) := by
    have h := parseRecordAt_two_tok sigtrainW t ht hws
    simpa [sigtrainLine, sigtrainW] using h
  refine ⟨hcnt, h3, ?_⟩
  rw [cmdSigTrain, if_neg (by decide)]
  simp only [h2, h3, hp, if_neg hacc]
  simp only [SigTrainRes.ok.injEq, SigTrainCall.mk.injEq]
  refine ⟨trivial, trivial, ?_⟩
  push_cast
  ring

theorem C10_amended_witness :
    ([53] : List Nat) ≠ [] ∧ (∀ b ∈ ([53] : List Nat), 32 < b ∧ b < 127) ∧
    ¬(((atoi [53]).emod 256).toNat = 0 ∧ ([53] : List Nat).headD 0 ≠ 48) ∧
    (checkParaNum (sigtrainLine [53]) = 2 ∧
      findPara (sigtrainLine [53]) 3 = some (9 + ([53] : List Nat).length, 0) ∧
      cmdSigTrain (sigtrainLine [53]) 2 0 =
        SigTrainRes.ok ⟨((atoi [53]).emod 256).toNat, 9 + ([53] : List Nat).length, 0⟩) :=
  ⟨by decide, by decide, by decide,
    C10_amended [53] (by decide) (by decide) (by decide)⟩

set_option maxRecDepth 4000 in
/-- C9: encoding any record id v in [0,254] as its decimal token and
running it through the train handler parses back to v and is accepted
(delegating `train([v])`); the token "0" is accepted as 0, the token "00"
is likewise accepted as 0, and the token "abc" is rejected with a format
error. -/
theorem C9_roundtrip :
    (∀ v : Nat, v < 255 →
      cmdTrain (trainLine (decRepr v)) (checkParaNum (trainLine (decRepr v))) 0
        = TrainRes.ok [v]) ∧
    cmdTrain (trainLine [48]) 2 0 = TrainRes.ok [0] ∧
    cmdTrain (trainLine [48, 48]) 2 0 = TrainRes.ok [0] ∧
    cmdTrain (trainLine [97, 98, 99]) 2 0 = TrainRes.err := by
  refine ⟨?_, by decide, by decide, by decide⟩
  decide

theorem C9_roundtrip_witness :
    (14 : Nat) < 255 ∧
    cmdTrain (trainLine (decRepr 14)) (checkParaNum (trainLine (decRepr 14))) 0
      = TrainRes.ok [14] :=
  ⟨by decide, C9_roundtrip.1 14 (by decide)⟩

end VRSample
